import Mathlib

/-!
Verification of the localization resolver (`load_translations`, `t`) of
`app/dashboard.py`, and of the repository health scorer / tech-stack detector
that the dashboard calls on its collaborator object.

Python values and tables. A translation table is the result of `json.load` on
a locale file: a mapping from string keys to JSON values — strings, null,
numbers (integers and floats), booleans, arrays and objects.
-/

/-- A value stored in a translation table: a JSON value as decoded by
`json.load`. A float is carried as its sign, integral part and fraction
digits; Python prints floats as the shortest round-trip decimal, and the one
property the theorems consult — that the rendering consists of sign, digits
and a point, and holds no brace — is shared by both renderings. -/
inductive PyVal where
  | vstr (s : String)
  | vnull
  | vint (n : Int)
  | vfloat (neg : Bool) (whole : Nat) (frac : Nat)
  | vbool (b : Bool)
  | vlist (xs : List PyVal)
  | vdict (kvs : List (String × PyVal))

/-- The kinds of exception that Python's `str.format` can raise and that the
embedding tracks: `KeyError` (missing named argument), `IndexError`
(positional replacement field with no positional arguments), `ValueError`
(malformed format string, bad conversion or specification), `AttributeError`
(attribute access on a value that has no such attribute), `TypeError`
(non-integer index into a string value). -/
inductive FmtError where
  | keyError
  | indexError
  | valueError
  | attrError
  | typeError
deriving DecidableEq

/-- `dict.get key` on an association list (Python dict lookup). -/
def dictGet {α : Type} : List (String × α) → String → Option α
  | [], _ => none
  | (k, v) :: rest, key => if k = key then some v else dictGet rest key

/-- Set one key of a dict, replacing the existing binding if present
(Python `d[k] = v`). -/
def setKey {α : Type} : List (String × α) → String → α → List (String × α)
  | [], k, v => [(k, v)]
  | (k0, v0) :: rest, k, v =>
    if k0 = k then (k, v) :: rest else (k0, v0) :: setKey rest k v

/-- Python `base.update(overlay)`: every key of the overlay is written into
the base table; keys absent from the overlay keep their base value. -/
def dictUpdate {α : Type} (base overlay : List (String × α)) : List (String × α) :=
  overlay.foldl (fun acc kv => setKey acc kv.1 kv.2) base

/-- Python `str(value)` for the decimal digits of a natural number: fuel-driven
so that it reduces definitionally; `natDigsAux (n+1) n` always has enough fuel. -/
def natDigsAux : Nat → Nat → List Char
  | 0, _ => []
  | fuel + 1, n =>
    if n < 10 then [digitCh n]
    else natDigsAux fuel (n / 10) ++ [digitCh (n % 10)]
where
  /-- The decimal digit character of `d % 10`. -/
  digitCh : Nat → Char
  | 0 => '0'
  | 1 => '1'
  | 2 => '2'
  | 3 => '3'
  | 4 => '4'
  | 5 => '5'
  | 6 => '6'
  | 7 => '7'
  | 8 => '8'
  | _ => '9'

/-- Python `str(n)` for an integer. -/
def intStr : Int → String
  | Int.ofNat m => String.mk (natDigsAux (m + 1) m)
  | Int.negSucc m => String.mk ('-' :: natDigsAux (m + 2) (m + 1))

/-- Python `str(b)` for a boolean. -/
def boolStr (b : Bool) : String := if b then "True" else "False"

/-- Python `str(f)` for a float carried as sign, integral part and fraction
digits. -/
def floatStr (neg : Bool) (whole frac : Nat) : String :=
  String.mk ((if neg then ['-'] else []) ++ natDigsAux (whole + 1) whole ++
    '.' :: natDigsAux (frac + 1) frac)

/-- The single quote character, `Char.ofNat 39`. -/
def quoteChar : Char := Char.ofNat 39

/-- Python `repr(s)` of a string: quoted, without modelling escape sequences
(the same simplification as for the `!r` conversion below). -/
def reprQuote (s : String) : String :=
  String.mk (quoteChar :: (s.data ++ [quoteChar]))

mutual
/-- Python `repr(value)`: scalars print as `str` does except that strings are
quoted; lists and dicts print their elements by `repr`, comma-separated,
inside brackets or braces. -/
def pyRepr : PyVal → String
  | PyVal.vstr s => reprQuote s
  | PyVal.vnull => "None"
  | PyVal.vint n => intStr n
  | PyVal.vfloat neg w f => floatStr neg w f
  | PyVal.vbool b => boolStr b
  | PyVal.vlist xs => "[" ++ pyReprList xs ++ "]"
  | PyVal.vdict kvs => "\x7b" ++ pyReprDict kvs ++ "\x7d"
/-- The comma-separated element renderings of a list. -/
def pyReprList : List PyVal → String
  | [] => ""
  | [x] => pyRepr x
  | x :: y :: rest => pyRepr x ++ ", " ++ pyReprList (y :: rest)
/-- The comma-separated `key: value` renderings of a dict. -/
def pyReprDict : List (String × PyVal) → String
  | [] => ""
  | [(k, x)] => reprQuote k ++ ": " ++ pyRepr x
  | (k, x) :: y :: rest =>
    reprQuote k ++ ": " ++ pyRepr x ++ ", " ++ pyReprDict (y :: rest)
end

/-- Python `str(value)` on a stored translation value: the string itself for
a string, `repr` for everything else (so `str` of a list or dict renders the
contained strings with quotes, as Python does). -/
def pyStr : PyVal → String
  | PyVal.vstr s => s
  | v => pyRepr v

/-- Is the stored value Python's `None`? -/
def isNull : PyVal → Bool
  | PyVal.vnull => true
  | _ => false

/-!
The format engine. `str.format(**kwargs)` scans the template left to right:
doubled braces are literal braces, a replacement field is
`{field_name!conversion:format_spec}`. The field object is fetched first
(KeyError / IndexError arise there), then the conversion is applied, then the
format specification. All keyword-argument values are strings, as in every
call site of `t` in the dashboard. Modelled subset, noted where it matters:
`!r`/`!a` quote without escaping, a nested replacement field inside a format
specification is a failure, and only the empty and `s` specifications format
successfully; attribute access on a string value is a non-KeyError failure.
-/

/-- A character that continues the base of a field name (everything except
the attribute/item delimiters `.` and `[`). -/
def nameChar (c : Char) : Bool := !(c == '.' || c == '[')

/-- Digits read as a natural number (the index inside `name[i]`). -/
def charsToNat (cs : List Char) : Nat :=
  cs.foldl (fun acc c => 10 * acc + (c.toNat - 48)) 0

/-- Only the empty and `s` format specifications are modelled as succeeding;
any other specification is a formatting failure. -/
def applySpec (w : List Char) (specCs : List Char) : Except FmtError (List Char) :=
  if specCs.isEmpty then Except.ok w
  else if specCs == ['s'] then Except.ok w
  else Except.error FmtError.valueError

/-- Apply the conversion (`!s` identity; `!r`/`!a` quote, without modelling
escape sequences; anything else is `ValueError`), then the specification. -/
def convSpec (w : List Char) (conv : Option Char) (specCs : List Char) :
    Except FmtError (List Char) :=
  match conv with
  | none => applySpec w specCs
  | some c =>
    if c == 's' then applySpec w specCs
    else if c == 'r' || c == 'a' then applySpec (quoteChar :: (w ++ [quoteChar])) specCs
    else Except.error FmtError.valueError

/-- Item / attribute access after the base of a field name: `[digits]` indexes
into the string value (IndexError when out of range, TypeError for a
non-integer index), `.attr` is modelled as an attribute failure. -/
def indexPart (rest : List Char) (v : String) : Except FmtError (List Char) :=
  match rest with
  | [] => Except.ok v.data
  | c :: more =>
    if c == '[' then
      let idxCs := more.takeWhile (fun d => !(d == ']'))
      let after := more.dropWhile (fun d => !(d == ']'))
      match after with
      | [] => Except.error FmtError.valueError
      | _ :: tail =>
        if tail.isEmpty then
          if !idxCs.isEmpty && idxCs.all Char.isDigit then
            match v.data.drop (charsToNat idxCs) with
            | [] => Except.error FmtError.indexError
            | ch :: _ => Except.ok [ch]
          else Except.error FmtError.typeError
        else Except.error FmtError.valueError
    else Except.error FmtError.attrError

/-- Resolve one replacement field against the keyword arguments: an empty or
all-digit base is a positional field (IndexError, since `t` never passes
positional arguments), a named base is looked up (KeyError when absent), then
item/attribute access, conversion and specification are applied in Python's
order. -/
def resolveField (nameCs : List Char) (conv : Option Char) (specCs : List Char)
    (ps : List (String × String)) : Except FmtError (List Char) :=
  let base := nameCs.takeWhile nameChar
  let rest := nameCs.dropWhile nameChar
  if base.all Char.isDigit then Except.error FmtError.indexError
  else
    match dictGet ps (String.mk base) with
    | none => Except.error FmtError.keyError
    | some v =>
      match indexPart rest v with
      | Except.error e => Except.error e
      | Except.ok w => convSpec w conv specCs

/-- Prepend already-formatted text to the result of formatting the rest. -/
def consRes (pre : List Char) (r : Except FmtError (List Char)) :
    Except FmtError (List Char) :=
  match r with
  | Except.ok v => Except.ok (pre ++ v)
  | Except.error e => Except.error e

/-- The scanner state of `str.format`: literal text, the field name being
read, the conversion character expected after `!`, the position after the
conversion character, or the format specification being read. -/
inductive Mode where
  | lit
  | name (acc : List Char)
  | conv (acc : List Char)
  | afterConv (acc : List Char) (c : Char)
  | spec (acc : List Char) (cv : Option Char) (sp : List Char)

/-- One left-to-right scan of the template, as Python's `str.format` performs
it: the first failure wins, literal text and substituted fields accumulate
otherwise. -/
def run : Mode → List Char → List (String × String) → Except FmtError (List Char)
  | Mode.lit, [], _ => Except.ok []
  | Mode.lit, c :: cs, ps =>
    if c == '{' then
      match cs with
      | [] => Except.error FmtError.valueError
      | c2 :: cs2 =>
        if c2 == '{' then consRes ['{'] (run Mode.lit cs2 ps)
        else run (Mode.name []) (c2 :: cs2) ps
    else if c == '}' then
      match cs with
      | [] => Except.error FmtError.valueError
      | c2 :: cs2 =>
        if c2 == '}' then consRes ['}'] (run Mode.lit cs2 ps)
        else Except.error FmtError.valueError
    else consRes [c] (run Mode.lit cs ps)
  | Mode.name _, [], _ => Except.error FmtError.valueError
  | Mode.name acc, c :: cs, ps =>
    if c == '}' then
      match resolveField acc none [] ps with
      | Except.error e => Except.error e
      | Except.ok v => consRes v (run Mode.lit cs ps)
    else if c == '!' then run (Mode.conv acc) cs ps
    else if c == ':' then run (Mode.spec acc none []) cs ps
    else if c == '{' then Except.error FmtError.valueError
    else run (Mode.name (acc ++ [c])) cs ps
  | Mode.conv _, [], _ => Except.error FmtError.valueError
  | Mode.conv acc, c :: cs, ps => run (Mode.afterConv acc c) cs ps
  | Mode.afterConv _ _, [], _ => Except.error FmtError.valueError
  | Mode.afterConv acc cv, c :: cs, ps =>
    if c == '}' then
      match resolveField acc (some cv) [] ps with
      | Except.error e => Except.error e
      | Except.ok v => consRes v (run Mode.lit cs ps)
    else if c == ':' then run (Mode.spec acc (some cv) []) cs ps
    else Except.error FmtError.valueError
  | Mode.spec _ _ _, [], _ => Except.error FmtError.valueError
  | Mode.spec acc cv sp, c :: cs, ps =>
    if c == '}' then
      match resolveField acc cv sp ps with
      | Except.error e => Except.error e
      | Except.ok v => consRes v (run Mode.lit cs ps)
    else if c == '{' then Except.error FmtError.valueError
    else run (Mode.spec acc cv (sp ++ [c])) cs ps

/-- `text.format(**kwargs)` on a template string. -/
def formatApply (text : String) (ps : List (String × String)) :
    Except FmtError String :=
  match run Mode.lit text.data ps with
  | Except.ok cs => Except.ok (String.mk cs)
  | Except.error e => Except.error e

/-- The `try/except KeyError` around the formatting call of `t`: a KeyError
degrades to the fallback (the unformatted text), every other exception
propagates. -/
def catchKeyErr (r : Except FmtError String) (fallback : String) :
    Except FmtError String :=
  match r with
  | Except.ok s => Except.ok s
  | Except.error FmtError.keyError => Except.ok fallback
  | Except.error e => Except.error e

/-- `t(key, **kwargs)` of `app/dashboard.py` (lines 59-72): look the key up
with the key itself as default, return `str(key)` when the stored value is
`None`, otherwise `str(text).format(**kwargs)` with `KeyError` degrading to
the unformatted `str(text)`. An `Except.error` value is an exception the
Python function would raise to its caller. -/
def t (table : List (String × PyVal)) (key : String)
    (kwargs : List (String × String)) : Except FmtError String :=
  match dictGet table key with
  | some PyVal.vnull => Except.ok key
  | some v => catchKeyErr (formatApply (pyStr v) kwargs) (pyStr v)
  | none => catchKeyErr (formatApply key kwargs) key

/-!
Loading translation tables. `load_translations` (lines 18-43) reads
`locales/en.json` as the base (an exception there leaves the base empty),
returns it unchanged for `"en"`, and otherwise overlays `locales/<code>.json`
with `dict.update`, swallowing a missing or unreadable overlay file. The
filesystem is an explicit parameter: for each language code, its locale file
is missing, malformed (unreadable or not parseable), or a parsed table.
-/

/-- The outcome of opening and `json.load`-ing one locale file. -/
inductive LoadResult where
  | missing
  | malformed
  | ok (tbl : List (String × PyVal))

/-- The supported languages of the selector, `LANGUAGES` (lines 47-52). -/
def LANGUAGES : List (String × String) :=
  [("en", "English"), ("es", "Español"), ("fr", "Français"), ("de", "Deutsch")]

/-- The supported language codes. -/
def supportedCodes : List String := LANGUAGES.map Prod.fst

/-- The base table: `locales/en.json`, or the empty dict when loading it
fails (lines 22-27). -/
def baseOf (store : String → LoadResult) : List (String × PyVal) :=
  match store "en" with
  | LoadResult.ok tbl => tbl
  | _ => []

/-- `load_translations(lang_code)` of `app/dashboard.py` (lines 18-43): the
English base, returned as is for `"en"`, otherwise updated with the overlay
for `lang_code` when that file loads, and returned unchanged when the overlay
is missing or unreadable. -/
def load_translations (store : String → LoadResult) (lang_code : String) :
    List (String × PyVal) :=
  let translations := baseOf store
  if lang_code = "en" then translations
  else
    match store lang_code with
    | LoadResult.ok lang_data => dictUpdate translations lang_data
    | _ => translations

/-!
Repository health scoring and tech-stack detection. `calculate_health_score`
and `detect_tech_stack` live on the `TraditionalAnalyzer` collaborator, whose
source is not part of this file set; the dashboard only calls them (lines
180-186) on `{"details": {"files": [...]}}`. Their data model is taken from
the specification: a fixed ordered checklist of named artifacts, each with
file-path patterns; an item is satisfied when some path matches some pattern.
-/

/-- A file-path pattern of a signature or checklist item: exact filename,
contained substring, or path suffix. -/
inductive Pat where
  | exact (s : String)
  | hasSubstr (s : String)
  | suffixP (s : String)
deriving DecidableEq

/-- Does the needle occur at the start of the haystack? -/
def startsWithL : List Char → List Char → Bool
  | [], _ => true
  | _ :: _, [] => false
  | n :: ns, c :: cs => n == c && startsWithL ns cs

/-- Does the needle occur contiguously anywhere in the haystack? -/
def containsL : List Char → List Char → Bool
  | n, [] => n.isEmpty
  | n, c :: cs => startsWithL n (c :: cs) || containsL n cs

/-- Does one file path match one pattern (case-sensitive)? -/
def patMatch (p : Pat) (f : String) : Bool :=
  match p with
  | Pat.exact s => f == s
  | Pat.hasSubstr s => containsL s.data f.data
  | Pat.suffixP s => startsWithL s.data.reverse f.data.reverse

/-- An item or signature is satisfied when at least one file path in the
listing matches at least one of its patterns. -/
def itemSatisfied (pats : List Pat) (files : List String) : Bool :=
  files.any (fun f => pats.any (fun p => patMatch p f))

/-- The result of the health scorer: a letter grade, the ordered names of the
unsatisfied checklist items, and the count of satisfied items. -/
structure HealthScoreResult where
  grade : String
  missing : List String
  satisfied_count : Nat
deriving DecidableEq

/-- Modelled from the spec: `TraditionalAnalyzer.calculate_health_score` is
not among the provided sources. Per the specification, each checklist item's
matcher is evaluated against the file listing, the names of unsatisfied items
are collected in checklist order, and the grade is a fixed threshold function
of `satisfied_count / total`: at least 0.8 gives "A", at least 0.5 gives "B",
anything lower gives "C". -/
def calculate_health_score (checklist : List (String × List Pat))
    (files : List String) : HealthScoreResult :=
  let missing := (checklist.filter (fun it => !itemSatisfied it.2 files)).map Prod.fst
  let satisfied := (checklist.filter (fun it => itemSatisfied it.2 files)).length
  let total := checklist.length
  let grade :=
    if 5 * satisfied ≥ 4 * total then "A"
    else if 2 * satisfied ≥ total then "B"
    else "C"
  { grade := grade, missing := missing, satisfied_count := satisfied }

/-- Modelled from the spec: the fixed ordered health checklist, with the
artifact names the specification enumerates (README, license file, CI config,
tests directory). -/
def healthChecklist : List (String × List Pat) :=
  [("README", [Pat.hasSubstr "README"]),
   ("License", [Pat.hasSubstr "LICENSE"]),
   ("CI config", [Pat.hasSubstr ".github/workflows"]),
   ("Tests", [Pat.hasSubstr "test"])]

/-- Modelled from the spec: `TraditionalAnalyzer.detect_tech_stack` is not
among the provided sources. Per the specification, each signature is checked
independently and the matching stack names are reported in the insertion
order of the signature definitions. -/
def detect_tech_stack (sigs : List (String × List Pat))
    (files : List String) : List String :=
  (sigs.filter (fun sg => itemSatisfied sg.2 files)).map Prod.fst

/-- Modelled from the spec: the fixed tech-stack signature table (the
specification names `package.json` as a signature example). -/
def techSignatures : List (String × List Pat) :=
  [("Node.js", [Pat.exact "package.json"]),
   ("Python", [Pat.exact "requirements.txt", Pat.exact "setup.py"]),
   ("Docker", [Pat.exact "Dockerfile"]),
   ("Rust", [Pat.exact "Cargo.toml"])]

/-!
Syntactic templates. The amended placeholder claims are stated over templates
built from literal text and simple named replacement fields, rendered to the
very string the format engine re-parses.
-/

/-- A piece of a template: literal text or a named replacement field. -/
inductive Chunk where
  | lit (s : String)
  | field (n : String)
deriving DecidableEq

/-- Render a template to the character sequence `str.format` scans. -/
def renderChunksL : List Chunk → List Char
  | [] => []
  | Chunk.lit s :: rest => s.data ++ renderChunksL rest
  | Chunk.field n :: rest => '{' :: (n.data ++ '}' :: renderChunksL rest)

/-- No brace character occurs in the text. -/
def braceFreeL (cs : List Char) : Bool :=
  cs.all (fun c => !(c == '{' || c == '}'))

/-- A character allowed in a simple field name: not a brace, delimiter,
attribute or item accessor. -/
def plainNameChar (c : Char) : Bool :=
  !(c == '{' || c == '}' || c == '!' || c == ':' || c == '.' || c == '[')

/-- A simple named field: plain name characters only and not an all-digit
(positional) name; such a name is necessarily nonempty. -/
def goodNameB (cs : List Char) : Bool :=
  cs.all plainNameChar && !cs.all Char.isDigit

/-- Every literal piece is brace-free and every field name is simple. -/
def goodChunksB (chunks : List Chunk) : Bool :=
  chunks.all fun c =>
    match c with
    | Chunk.lit s => braceFreeL s.data
    | Chunk.field n => goodNameB n.data

/-- Some field of the template has no value among the keyword arguments. -/
def hasMissingB (chunks : List Chunk) (ps : List (String × String)) : Bool :=
  chunks.any fun c =>
    match c with
    | Chunk.lit _ => false
    | Chunk.field n => (dictGet ps n).isNone

/-- Is the result a propagated KeyError? (`t` must never produce one.) -/
def isKeyErr (r : Except FmtError String) : Bool :=
  match r with
  | Except.error FmtError.keyError => true
  | _ => false

/-- Did the lookup succeed with exactly this string? -/
def resultIsOk (r : Except FmtError String) (s : String) : Bool :=
  match r with
  | Except.ok v => v == s
  | Except.error _ => false

/-- Modelled from the spec: the locale file store ships one translation file
per supported language code; no locale file exists for a code outside the
supported set, so loading such a code's overlay finds no file. -/
def shippedLayout (store : String → LoadResult) : Prop :=
  ∀ c, c ∉ supportedCodes → store c = LoadResult.missing

/-!
Concrete tables and stores used by the witnesses and counterexamples.
-/

/-- A table whose one template is the lone-brace string, an invalid format
string. -/
def tableLoneBrace : List (String × PyVal) := [("k", PyVal.vstr "\x7b")]

/-- A table whose template mixes a positional and a named replacement field. -/
def tablePositional : List (String × PyVal) := [("k", PyVal.vstr "{0}{name}")]

/-- A table holding a simple named-placeholder template. -/
def tableNamed : List (String × PyVal) := [("k", PyVal.vstr "{name}")]

/-- A table with a `null`, an integer, a float, a boolean and a list value. -/
def tableScalars : List (String × PyVal) :=
  [("n", PyVal.vnull), ("i", PyVal.vint 42), ("f", PyVal.vfloat false 2 5),
   ("b", PyVal.vbool true), ("l", PyVal.vlist [PyVal.vint 1, PyVal.vint 2])]

/-- A table storing a JSON array whose only element is the lone-brace
string; Python renders it as that string quoted inside brackets. -/
def tableListBrace : List (String × PyVal) :=
  [("k", PyVal.vlist [PyVal.vstr "\x7b"])]

/-- A store with a two-key base and a Spanish overlay overriding one key. -/
def storeOverlay : String → LoadResult := fun c =>
  if c = "en" then LoadResult.ok [("a", PyVal.vstr "base-a"), ("b", PyVal.vstr "base-b")]
  else if c = "es" then LoadResult.ok [("a", PyVal.vstr "hola")]
  else LoadResult.missing

/-- A store shipping only the English base. -/
def storeBaseOnly : String → LoadResult := fun c =>
  if c = "en" then LoadResult.ok [("x", PyVal.vstr "v")] else LoadResult.missing

/-- A store whose English base is missing while a Spanish overlay loads. -/
def storeNoBase : String → LoadResult := fun c =>
  if c = "es" then LoadResult.ok [("a", PyVal.vstr "hola")] else LoadResult.missing

/-!
Dictionary lemmas: how `dictGet` interacts with `setKey` and `dictUpdate`.
-/

theorem dictGet_setKey_self {α : Type} (l : List (String × α)) (k : String) (v : α) :
    dictGet (setKey l k v) k = some v := by
  induction l with
  | nil => simp [setKey, dictGet]
  | cons kv rest ih =>
    obtain ⟨k0, v0⟩ := kv
    by_cases h : k0 = k
    · simp [setKey, h, dictGet]
    · simp [setKey, h, dictGet, ih]

theorem dictGet_setKey_ne {α : Type} (l : List (String × α)) (k k' : String) (v : α)
    (h : k' ≠ k) : dictGet (setKey l k' v) k = dictGet l k := by
  induction l with
  | nil => simp [setKey, dictGet, h]
  | cons kv rest ih =>
    obtain ⟨k0, v0⟩ := kv
    by_cases h0 : k0 = k'
    · simp [setKey, h0, dictGet, h]
    · simp [setKey, h0, dictGet, ih]

theorem dictGet_eq_none_of_not_mem {α : Type} (l : List (String × α)) (k : String)
    (h : k ∉ l.map Prod.fst) : dictGet l k = none := by
  induction l with
  | nil => rfl
  | cons kv rest ih =>
    obtain ⟨k0, v0⟩ := kv
    simp only [List.map_cons, List.mem_cons] at h
    push_neg at h
    have h1 : ¬(k0 = k) := fun hh => h.1 hh.symm
    simp [dictGet, h1, ih h.2]

theorem dictUpdate_cons {α : Type} (b : List (String × α)) (k : String) (v : α)
    (o : List (String × α)) :
    dictUpdate b ((k, v) :: o) = dictUpdate (setKey b k v) o := rfl

theorem dictGet_dictUpdate {α : Type} (o : List (String × α)) :
    ∀ (b : List (String × α)) (k : String), (o.map Prod.fst).Nodup →
    dictGet (dictUpdate b o) k =
      match dictGet o k with
      | some v => some v
      | none => dictGet b k := by
  induction o with
  | nil => intro b k _; rfl
  | cons kv rest ih =>
    intro b k hnd
    obtain ⟨k0, v0⟩ := kv
    simp only [List.map_cons, List.nodup_cons] at hnd
    rw [dictUpdate_cons, ih _ k hnd.2]
    by_cases h : k0 = k
    · subst h
      rw [dictGet_eq_none_of_not_mem rest k0 hnd.1]
      simp [dictGet, dictGet_setKey_self]
    · simp [dictGet, h, dictGet_setKey_ne _ _ _ _ h]

theorem setKey_eq_append_of_none {α : Type} (b : List (String × α)) (k : String) (v : α)
    (h : dictGet b k = none) : setKey b k v = b ++ [(k, v)] := by
  induction b with
  | nil => rfl
  | cons kv rest ih =>
    obtain ⟨k0, v0⟩ := kv
    by_cases h0 : k0 = k
    · simp [dictGet, h0] at h
    · simp only [dictGet, if_neg h0] at h
      simp [setKey, h0, ih h]

theorem dictGet_append {α : Type} (l1 l2 : List (String × α)) (k : String) :
    dictGet (l1 ++ l2) k =
      match dictGet l1 k with
      | some v => some v
      | none => dictGet l2 k := by
  induction l1 with
  | nil => rfl
  | cons kv rest ih =>
    obtain ⟨k0, v0⟩ := kv
    by_cases h : k0 = k <;> simp [dictGet, h, ih]

theorem dictUpdate_of_disjoint {α : Type} (o : List (String × α)) :
    ∀ (b : List (String × α)), (∀ k ∈ o.map Prod.fst, dictGet b k = none) →
    (o.map Prod.fst).Nodup → dictUpdate b o = b ++ o := by
  induction o with
  | nil => intro b _ _; simp [dictUpdate]
  | cons kv rest ih =>
    intro b hdis hnd
    obtain ⟨k0, v0⟩ := kv
    simp only [List.map_cons, List.nodup_cons] at hnd
    rw [dictUpdate_cons,
      setKey_eq_append_of_none b k0 v0 (hdis k0 (by simp)),
      ih _ ?_ hnd.2]
    · simp
    · intro k hk
      rw [dictGet_append]
      rw [hdis k (by simp [hk])]
      have : k0 ≠ k := fun hh => hnd.1 (hh ▸ hk)
      simp [dictGet, this]

theorem dictUpdate_nil_left {α : Type} (o : List (String × α))
    (hnd : (o.map Prod.fst).Nodup) : dictUpdate [] o = o := by
  have := dictUpdate_of_disjoint o [] (fun k _ => rfl) hnd
  simpa using this

/-!
Format-engine lemmas: brace-free text formats to itself, and a simple
named-placeholder template with an unsupplied name formats to a KeyError.
-/

theorem consRes_consRes (a b : List Char) (r : Except FmtError (List Char)) :
    consRes a (consRes b r) = consRes (a ++ b) r := by
  cases r <;> simp [consRes]

theorem consRes_nil (r : Except FmtError (List Char)) : consRes [] r = r := by
  cases r <;> simp [consRes]

theorem braceFreeL_cons (c : Char) (cs : List Char) (h : braceFreeL (c :: cs) = true) :
    (c == '{') = false ∧ (c == '}') = false ∧ braceFreeL cs = true := by
  simp only [braceFreeL, List.all_cons, Bool.and_eq_true, Bool.not_eq_true',
    Bool.or_eq_false_iff] at h
  exact ⟨h.1.1, h.1.2, h.2⟩

theorem run_lit_bracefree (cs : List Char) (ps : List (String × String))
    (h : braceFreeL cs = true) : run Mode.lit cs ps = Except.ok cs := by
  induction cs with
  | nil => rfl
  | cons c rest ih =>
    obtain ⟨h1, h2, h3⟩ := braceFreeL_cons c rest h
    rw [run.eq_def]
    simp [h1, h2, ih h3, consRes]

theorem run_lit_append (pre cs : List Char) (ps : List (String × String))
    (h : braceFreeL pre = true) :
    run Mode.lit (pre ++ cs) ps = consRes pre (run Mode.lit cs ps) := by
  induction pre with
  | nil => rw [List.nil_append, consRes_nil]
  | cons c rest ih =>
    obtain ⟨h1, h2, h3⟩ := braceFreeL_cons c rest h
    rw [List.cons_append, run.eq_def]
    simp only [h1, h2, Bool.false_eq_true, if_false, ih h3, consRes_consRes,
      List.singleton_append]

/-- A character that does not terminate a field name in the scanner. -/
def plainFieldChar (c : Char) : Bool :=
  !(c == '{' || c == '}' || c == '!' || c == ':')

theorem plainNameChar_imp_plainFieldChar (c : Char) (h : plainNameChar c = true) :
    plainFieldChar c = true := by
  simp only [plainNameChar, Bool.not_eq_true', Bool.or_eq_false_iff] at h
  simp [plainFieldChar, h.1.1.1.1, h.1.1.1.2, h.1.1.2, h.1.2]

theorem plainNameChar_imp_nameChar (c : Char) (h : plainNameChar c = true) :
    nameChar c = true := by
  simp only [plainNameChar, Bool.not_eq_true', Bool.or_eq_false_iff] at h
  simp [nameChar, h.1.2, h.2]

theorem run_name_steps (nCs : List Char) :
    ∀ (acc rest : List Char) (ps : List (String × String)),
    nCs.all plainFieldChar = true →
    run (Mode.name acc) (nCs ++ '}' :: rest) ps =
      match resolveField (acc ++ nCs) none [] ps with
      | Except.error e => Except.error e
      | Except.ok v => consRes v (run Mode.lit rest ps) := by
  induction nCs with
  | nil =>
    intro acc rest ps _
    rw [List.nil_append, run.eq_def]
    simp
  | cons c ns ih =>
    intro acc rest ps h
    simp only [List.all_cons, Bool.and_eq_true] at h
    have hc := h.1
    simp only [plainFieldChar, Bool.not_eq_true', Bool.or_eq_false_iff] at hc
    obtain ⟨⟨⟨hc1, hc2⟩, hc3⟩, hc4⟩ := hc
    rw [List.cons_append, run.eq_def]
    simp only [hc1, hc2, hc3, hc4, Bool.false_eq_true, if_false]
    rw [ih (acc ++ [c]) rest ps h.2]
    simp [List.append_assoc]

theorem resolveField_plain (nCs : List Char) (ps : List (String × String))
    (hplain : nCs.all plainNameChar = true)
    (hdig : nCs.all Char.isDigit = false) :
    resolveField nCs none [] ps =
      match dictGet ps (String.mk nCs) with
      | none => Except.error FmtError.keyError
      | some v => Except.ok v.data := by
  have hmem : ∀ x ∈ nCs, nameChar x = true := by
    intro x hx
    exact plainNameChar_imp_nameChar x (by
      have := List.all_eq_true.mp hplain x hx
      exact this)
  have htake : nCs.takeWhile nameChar = nCs := List.takeWhile_eq_self_iff.mpr hmem
  have hdrop : nCs.dropWhile nameChar = [] := List.dropWhile_eq_nil_iff.mpr hmem
  rw [resolveField]
  simp only [htake, hdrop, hdig, Bool.false_eq_true, if_false]
  cases dictGet ps (String.mk nCs) with
  | none => rfl
  | some v => rfl

theorem goodNameB_ne_nil (cs : List Char) (h : goodNameB cs = true) : cs ≠ [] := by
  intro hnil
  subst hnil
  simp [goodNameB] at h

theorem run_renderChunks_missing (chunks : List Chunk) :
    ∀ ps : List (String × String), goodChunksB chunks = true →
    hasMissingB chunks ps = true →
    run Mode.lit (renderChunksL chunks) ps = Except.error FmtError.keyError := by
  induction chunks with
  | nil => intro ps _ hm; simp [hasMissingB] at hm
  | cons c rest ih =>
    intro ps hg hm
    simp only [goodChunksB, List.all_cons, Bool.and_eq_true] at hg
    cases c with
    | lit s =>
      have hm' : hasMissingB rest ps = true := by
        simpa [hasMissingB] using hm
      rw [renderChunksL, run_lit_append s.data _ ps hg.1, ih ps hg.2 hm']
      rfl
    | field n =>
      have hgn : goodNameB n.data = true := hg.1
      obtain ⟨hpl, hdig⟩ : n.data.all plainNameChar = true ∧
          n.data.all Char.isDigit = false := by
        simpa [goodNameB, Bool.and_eq_true, Bool.not_eq_true'] using hgn
      obtain ⟨d, ds, hds⟩ : ∃ d ds, n.data = d :: ds := by
        cases hnd : n.data with
        | nil => exact absurd hnd (goodNameB_ne_nil n.data hgn)
        | cons d ds => exact ⟨d, ds, rfl⟩
      have hd : plainNameChar d = true := by
        have := List.all_eq_true.mp hpl d (by rw [hds]; exact List.mem_cons_self d ds)
        exact this
      have hdfield : plainFieldChar d = true := plainNameChar_imp_plainFieldChar d hd
      have hd1 : (d == '{') = false := by
        simp only [plainFieldChar, Bool.not_eq_true', Bool.or_eq_false_iff] at hdfield
        exact hdfield.1.1.1
      rw [renderChunksL, hds, List.cons_append, run.eq_def]
      simp only [beq_self_eq_true, if_true, hd1, Bool.false_eq_true, if_false]
      rw [show d :: (ds ++ '}' :: renderChunksL rest) =
        (d :: ds) ++ '}' :: renderChunksL rest from rfl, ← hds]
      rw [run_name_steps n.data [] (renderChunksL rest) ps
        (by
          apply List.all_eq_true.mpr
          intro x hx
          exact plainNameChar_imp_plainFieldChar x (List.all_eq_true.mp hpl x hx))]
      rw [List.nil_append,
        resolveField_plain n.data ps hpl hdig]
      have : String.mk n.data = n := rfl
      rw [this]
      cases hget : dictGet ps n with
      | none => rfl
      | some v =>
        have hm' : hasMissingB rest ps = true := by
          simpa [hasMissingB, hget] using hm
        rw [ih ps hg.2 hm']
        rfl

/-!
Brace-freeness of the string forms of non-string scalars, and the behaviour
of `t` on brace-free text and on non-string values.
-/

theorem digitCh_braceFree (d : Nat) :
    (!(natDigsAux.digitCh d == '{' || natDigsAux.digitCh d == '}')) = true := by
  match d with
  | 0 | 1 | 2 | 3 | 4 | 5 | 6 | 7 | 8 => rfl
  | n + 9 => rfl

theorem natDigsAux_braceFree (fuel : Nat) :
    ∀ n : Nat, braceFreeL (natDigsAux fuel n) = true := by
  induction fuel with
  | zero => intro n; rfl
  | succ f ih =>
    intro n
    rw [natDigsAux]
    by_cases h : n < 10
    · simp only [if_pos h, braceFreeL, List.all_cons, List.all_nil,
        Bool.and_eq_true]
      exact ⟨digitCh_braceFree n, trivial⟩
    · simp only [if_neg h, braceFreeL, List.all_append, List.all_cons,
        List.all_nil, Bool.and_eq_true]
      exact ⟨ih (n / 10), digitCh_braceFree (n % 10), trivial⟩

theorem intStr_braceFree (n : Int) : braceFreeL (intStr n).data = true := by
  cases n with
  | ofNat m => exact natDigsAux_braceFree (m + 1) m
  | negSucc m =>
    simp only [intStr, braceFreeL, List.all_cons, Bool.and_eq_true]
    exact ⟨rfl, natDigsAux_braceFree (m + 2) (m + 1)⟩

theorem boolStr_braceFree (b : Bool) : braceFreeL (boolStr b).data = true := by
  cases b <;> rfl

theorem formatApply_bracefree (s : String) (ps : List (String × String))
    (h : braceFreeL s.data = true) : formatApply s ps = Except.ok s := by
  rw [formatApply, run_lit_bracefree s.data ps h]

theorem isKeyErr_catchKeyErr (r : Except FmtError String) (fb : String) :
    isKeyErr (catchKeyErr r fb) = false := by
  cases r with
  | ok s => rfl
  | error e => cases e <;> rfl

theorem t_rawkey_of_bracefree (table : List (String × PyVal)) (key : String)
    (ps : List (String × String)) (hk : dictGet table key = none)
    (hb : braceFreeL key.data = true) : t table key ps = Except.ok key := by
  rw [t, hk, formatApply_bracefree key ps hb]
  rfl

theorem floatStr_braceFree (neg : Bool) (w f : Nat) :
    braceFreeL (floatStr neg w f).data = true := by
  have h1 : (natDigsAux (w + 1) w).all (fun c => !(c == '{' || c == '}')) = true :=
    natDigsAux_braceFree (w + 1) w
  have h2 : (natDigsAux (f + 1) f).all (fun c => !(c == '{' || c == '}')) = true :=
    natDigsAux_braceFree (f + 1) f
  have hminus : (!('-' == '{' || '-' == '}')) = true := by decide
  have hdot : (!('.' == '{' || '.' == '}')) = true := by decide
  cases neg <;>
    simp_all [floatStr, braceFreeL, List.all_append, List.all_cons]

theorem t_eq_catch_of_get (table : List (String × PyVal)) (key : String)
    (ps : List (String × String)) (v : PyVal)
    (hv : dictGet table key = some v) (hnull : isNull v = false) :
    t table key ps = catchKeyErr (formatApply (pyStr v) ps) (pyStr v) := by
  rw [t, hv]
  cases v with
  | vnull => simp [isNull] at hnull
  | vstr s => rfl
  | vint n => rfl
  | vfloat neg w f => rfl
  | vbool b => rfl
  | vlist xs => rfl
  | vdict kvs => rfl

theorem t_value_bracefree (table : List (String × PyVal)) (key : String)
    (ps : List (String × String)) (v : PyVal)
    (hv : dictGet table key = some v) (hnull : isNull v = false)
    (hbf : braceFreeL (pyStr v).data = true) :
    t table key ps = Except.ok (pyStr v) := by
  rw [t_eq_catch_of_get table key ps v hv hnull,
    formatApply_bracefree _ ps hbf]
  rfl

theorem length_filter_split {α : Type} (p : α → Bool) (l : List α) :
    (l.filter p).length + (l.filter (fun a => !p a)).length = l.length := by
  induction l with
  | nil => rfl
  | cons a rest ih =>
    cases hp : p a <;> simp [List.filter, hp] <;> omega

/-!
The claims. One theorem per claim, with its witness or counterexample.
-/

/-- Claim C1, counterexample: a table whose template for `"k"` is the single
character `{` makes `t` raise `ValueError` (Python: "Single brace encountered
in format string"), so the lookup does propagate an exception to its caller. -/
theorem c1_counterexample :
    t tableLoneBrace "k" [] = Except.error FmtError.valueError := rfl

/-- Claim C1, amended: `t` never propagates a `KeyError` — every
missing-named-placeholder failure degrades to a fallback string — but other
formatting failures (malformed template, positional placeholder, invalid
conversion, unsupported item access) do propagate to the caller. -/
theorem c1_no_keyerror_propagation (table : List (String × PyVal)) (key : String)
    (ps : List (String × String)) : isKeyErr (t table key ps) = false := by
  rw [t]
  cases dictGet table key with
  | none => exact isKeyErr_catchKeyErr _ _
  | some v =>
    cases v with
    | vnull => rfl
    | vstr s => exact isKeyErr_catchKeyErr _ _
    | vint n => exact isKeyErr_catchKeyErr _ _
    | vfloat neg w f => exact isKeyErr_catchKeyErr _ _
    | vbool b => exact isKeyErr_catchKeyErr _ _
    | vlist xs => exact isKeyErr_catchKeyErr _ _
    | vdict kvs => exact isKeyErr_catchKeyErr _ _

/-- Claim C2, counterexample: the key `"{"` is not present in the empty
table, yet `t` raises `ValueError` instead of returning the key, because the
key itself is formatted and is a malformed template. -/
theorem c2_counterexample :
    t [] "\x7b" [] = Except.error FmtError.valueError := rfl

/-- Claim C2, amended: for every key not present in the table whose text
contains no brace character, `t` returns the key itself verbatim and does not
raise; in particular `t(table, "nonexistent_key")` returns
`"nonexistent_key"`. -/
theorem c2_unknown_key_returns_key (table : List (String × PyVal)) (key : String)
    (ps : List (String × String)) (hk : dictGet table key = none)
    (hb : braceFreeL key.data = true) : t table key ps = Except.ok key :=
  t_rawkey_of_bracefree table key ps hk hb

theorem c2_witness : t [] "nonexistent_key" [] = Except.ok "nonexistent_key" :=
  c2_unknown_key_returns_key [] "nonexistent_key" [] rfl rfl

/-- Claim C3, counterexample: the resolved template `"{0}{name}"` contains the
named placeholder `name`, no value for it is supplied, and `t` raises
`IndexError` (the positional field is resolved first) instead of returning
the raw template. -/
theorem c3_counterexample :
    t tablePositional "k" [] = Except.error FmtError.indexError := rfl

/-- Claim C3, amended: for every key whose resolved template consists of
brace-free literal text and simple named placeholders, if any placeholder has
no supplied value, `t` returns the raw template text unchanged with no
substitution and no exception; templates that also contain positional or
malformed fields resolved before the missing name may instead propagate an
IndexError/ValueError. -/
theorem c3_missing_placeholder_returns_raw (table : List (String × PyVal))
    (key : String) (chunks : List Chunk) (ps : List (String × String))
    (hg : goodChunksB chunks = true) (hm : hasMissingB chunks ps = true)
    (hk : dictGet table key = some (PyVal.vstr (String.mk (renderChunksL chunks)))) :
    t table key ps = Except.ok (String.mk (renderChunksL chunks)) := by
  rw [t, hk]
  show catchKeyErr
      (match run Mode.lit (renderChunksL chunks) ps with
       | Except.ok cs => Except.ok (String.mk cs)
       | Except.error e => Except.error e)
      (String.mk (renderChunksL chunks)) = Except.ok (String.mk (renderChunksL chunks))
  rw [run_renderChunks_missing chunks ps hg hm]
  rfl

theorem c3_witness : t tableNamed "k" [] = Except.ok "{name}" :=
  c3_missing_placeholder_returns_raw tableNamed "k" [Chunk.field "name"] [] rfl rfl rfl

/-- Claim C4: for every supported non-English language code whose overlay
table loads successfully, the resolved table maps every key present in the
overlay (in particular every key present in both base and overlay) to the
overlay's value, and every key present only in the base to the base's value.
The overlay's keys are pairwise distinct, as any table decoded by `json.load`
has. -/
theorem c4_overlay_wins_base_kept (store : String → LoadResult) (code : String)
    (o : List (String × PyVal)) (k : String)
    (hc : code ∈ (["es", "fr", "de"] : List String))
    (ho : store code = LoadResult.ok o)
    (hnd : (o.map Prod.fst).Nodup) :
    (∀ v, dictGet o k = some v →
      dictGet (load_translations store code) k = some v) ∧
    (dictGet o k = none →
      dictGet (load_translations store code) k = dictGet (baseOf store) k) := by
  have hne : code ≠ "en" := by
    intro h
    subst h
    simp at hc
  have hload : load_translations store code = dictUpdate (baseOf store) o := by
    simp [load_translations, hne, ho]
  constructor
  · intro v hv
    rw [hload, dictGet_dictUpdate o (baseOf store) k hnd, hv]
  · intro hnone
    rw [hload, dictGet_dictUpdate o (baseOf store) k hnd, hnone]

theorem c4_witness :
    dictGet (load_translations storeOverlay "es") "a" = some (PyVal.vstr "hola") ∧
    dictGet (load_translations storeOverlay "es") "b" =
      some (PyVal.vstr "base-b") :=
  ⟨(c4_overlay_wins_base_kept storeOverlay "es" [("a", PyVal.vstr "hola")] "a"
      (by decide) rfl (by decide)).1 (PyVal.vstr "hola") rfl,
   ((c4_overlay_wins_base_kept storeOverlay "es" [("a", PyVal.vstr "hola")] "b"
      (by decide) rfl (by decide)).2 rfl).trans rfl⟩

/-- Claim C5: for every language code outside the supported set — for which
the shipped locale directory holds no file — and for any code whose overlay
file is missing or unreadable, `load_translations` returns a table identical
to the English base table, surfacing no error. -/
theorem c5_fallback_to_base (store : String → LoadResult) (code : String)
    (hship : shippedLayout store)
    (h : code ∉ supportedCodes ∨ store code = LoadResult.missing ∨
      store code = LoadResult.malformed) :
    load_translations store code = baseOf store := by
  by_cases hen : code = "en"
  · simp [load_translations, hen]
  · have hmm : store code = LoadResult.missing ∨
        store code = LoadResult.malformed := by
      rcases h with h1 | h2
      · exact Or.inl (hship code h1)
      · exact h2
    rcases hmm with h1 | h1 <;> simp [load_translations, hen, h1]

theorem c5_witness : load_translations storeBaseOnly "xx" = baseOf storeBaseOnly :=
  c5_fallback_to_base storeBaseOnly "xx"
    (fun c hc => by
      have hcne : ¬(c = "en") := fun h => hc (by rw [h]; decide)
      simp [storeBaseOnly, hcne])
    (Or.inl (by decide))

/-- Claim C6: when the language code equals `"en"`, `load_translations`
returns the English base table unchanged, with no overlay applied. -/
theorem c6_en_returns_base (store : String → LoadResult) :
    load_translations store "en" = baseOf store := by
  simp [load_translations]

/-- Claim C7: for every checklist and every file listing, the result of the
health scorer satisfies both invariants: every name in `missing` is a
checklist item name, and `satisfied_count` plus the length of `missing`
equals the total number of checklist items. -/
theorem c7_health_result_invariants (checklist : List (String × List Pat))
    (files : List String) :
    ((calculate_health_score checklist files).missing.all
      (fun x => decide (x ∈ checklist.map Prod.fst)) = true) ∧
    (calculate_health_score checklist files).satisfied_count +
      (calculate_health_score checklist files).missing.length =
      checklist.length := by
  constructor
  · apply List.all_eq_true.mpr
    intro x hx
    simp only [calculate_health_score] at hx
    rw [decide_eq_true_eq]
    rcases List.mem_map.mp hx with ⟨it, hit, hxe⟩
    exact List.mem_map.mpr ⟨it, (List.mem_filter.mp hit).1, hxe⟩
  · simp only [calculate_health_score, List.length_map]
    exact length_filter_split _ checklist

/-- Claim C8: on an empty file listing, `detect_tech_stack` returns the empty
set and `calculate_health_score` returns the lowest configured grade with
`missing` equal to the full ordered checklist. -/
theorem c8_empty_listing :
    detect_tech_stack techSignatures [] = [] ∧
    calculate_health_score healthChecklist [] =
      { grade := "C", missing := ["README", "License", "CI config", "Tests"],
        satisfied_count := 0 } := by
  constructor <;> rfl

/-- Claim C9, counterexample: with the English base missing and the Spanish
overlay loaded, the resulting overlay-only table resolves the overlay key
`"a"` to `"hola"`, not to the raw-key fallback `"a"` — so not every
subsequent lookup degrades to the raw key. -/
theorem c9_counterexample :
    resultIsOk (t (load_translations storeNoBase "es") "a" []) "a" = false ∧
    t (load_translations storeNoBase "es") "a" [] = Except.ok "hola" := by
  constructor <;> rfl

/-- Claim C9, amended: if loading the English base fails, `load_translations`
still returns a table without raising — the empty table when the code is
`"en"` or the overlay also fails, the overlay-only table otherwise — and
subsequent lookups of keys absent from the resulting table (whose text is
brace-free) degrade to the raw-key fallback, while keys present in the
overlay-only table resolve to their overlay values. -/
theorem c9_base_failure_behaviour (store : String → LoadResult) (code : String)
    (hbase : store "en" = LoadResult.missing ∨
      store "en" = LoadResult.malformed) :
    (code = "en" → load_translations store code = []) ∧
    ((store code = LoadResult.missing ∨ store code = LoadResult.malformed) →
      load_translations store code = []) ∧
    (∀ o, store code = LoadResult.ok o → code ≠ "en" →
      (o.map Prod.fst).Nodup → load_translations store code = o) ∧
    (∀ key ps, dictGet (load_translations store code) key = none →
      braceFreeL key.data = true →
      t (load_translations store code) key ps = Except.ok key) := by
  have hb : baseOf store = [] := by
    rcases hbase with h | h <;> simp [baseOf, h]
  refine ⟨?_, ?_, ?_, ?_⟩
  · intro h
    simp [load_translations, h, hb]
  · intro h
    by_cases hen : code = "en"
    · simp [load_translations, hen, hb]
    · rcases h with h | h <;> simp [load_translations, hen, h, hb]
  · intro o ho hne hnd
    simp [load_translations, hne, ho, hb, dictUpdate_nil_left o hnd]
  · intro key ps hnone hbf
    exact t_rawkey_of_bracefree _ key ps hnone hbf

theorem c9_witness :
    load_translations storeNoBase "es" = [("a", PyVal.vstr "hola")] :=
  (c9_base_failure_behaviour storeNoBase "es" (Or.inl rfl)).2.2.1
    [("a", PyVal.vstr "hola")] rfl (by decide) (by decide)

/-- Claim C10, counterexample: the composite stored value — a JSON array
holding the lone-brace string — has the Python string conversion consisting
of that string quoted inside brackets, a malformed template, so `t` raises
`ValueError` instead of returning the string conversion. -/
theorem c10_counterexample :
    t tableListBrace "k" [] = Except.error FmtError.valueError := rfl

/-- Claim C10, amended: a key stored with value `None` resolves to the string
form of the key itself (not `"None"`, no exception). Any other non-string
stored value is converted with `str()` and that conversion is formatted:
whenever the conversion contains no brace character — as for every integer,
float and boolean, and for composites whose rendering is brace-free — `t`
returns the string conversion unchanged; a composite value whose rendering
forms a malformed template instead raises a formatting error, which `t`
propagates. -/
theorem c10_nonstring_values (table : List (String × PyVal)) (key : String)
    (ps : List (String × String)) :
    (dictGet table key = some PyVal.vnull → t table key ps = Except.ok key) ∧
    (∀ v, dictGet table key = some v → isNull v = false →
      braceFreeL (pyStr v).data = true → t table key ps = Except.ok (pyStr v)) ∧
    (∀ n, dictGet table key = some (PyVal.vint n) →
      t table key ps = Except.ok (intStr n)) ∧
    (∀ neg w f, dictGet table key = some (PyVal.vfloat neg w f) →
      t table key ps = Except.ok (floatStr neg w f)) ∧
    (∀ b, dictGet table key = some (PyVal.vbool b) →
      t table key ps = Except.ok (boolStr b)) := by
  refine ⟨?_, ?_, ?_, ?_, ?_⟩
  · intro h
    rw [t, h]
  · intro v hv hnull hbf
    exact t_value_bracefree table key ps v hv hnull hbf
  · intro n h
    exact t_value_bracefree table key ps (PyVal.vint n) h rfl (intStr_braceFree n)
  · intro neg w f h
    exact t_value_bracefree table key ps (PyVal.vfloat neg w f) h rfl
      (floatStr_braceFree neg w f)
  · intro b h
    exact t_value_bracefree table key ps (PyVal.vbool b) h rfl (boolStr_braceFree b)

theorem c10_witness :
    t tableScalars "n" [] = Except.ok "n" ∧
    t tableScalars "i" [] = Except.ok (intStr 42) ∧
    t tableScalars "f" [] = Except.ok (floatStr false 2 5) ∧
    t tableScalars "b" [] = Except.ok (boolStr true) ∧
    t tableScalars "l" [] =
      Except.ok (pyStr (PyVal.vlist [PyVal.vint 1, PyVal.vint 2])) :=
  ⟨(c10_nonstring_values tableScalars "n" []).1 rfl,
   (c10_nonstring_values tableScalars "i" []).2.2.1 42 rfl,
   (c10_nonstring_values tableScalars "f" []).2.2.2.1 false 2 5 rfl,
   (c10_nonstring_values tableScalars "b" []).2.2.2.2 true rfl,
   (c10_nonstring_values tableScalars "l" []).2.1
     (PyVal.vlist [PyVal.vint 1, PyVal.vint 2]) rfl rfl rfl⟩
